import Mathlib

/-!
Verification of rg_project: the controller of the shooting-range scene.

A shallow embedding of `app/src/MainController.cpp` and of the parts of
`engine/src/GraphicsController.cpp` it drives.

* Scalars (`float`) are taken as rationals; every statement below is about the
  structure of the computation (which slots are written, with which operands,
  in which order) and none depends on rounding.
* The controller mutates its members, the camera held by the graphics
  controller and the targets.  Here that is explicit state passing on `State`.
* `Target` and `Camera` are declared outside the two source files.  Their
  member functions are the fields of `Engine`, so every theorem holds for all
  implementations of them.
* Each loop over `m_targets` records what it does to which target in
  `State.trace` (oldest entry first).
-/

namespace RgProject

/-! ## Vectors and matrices (glm) -/

/-- Three floats, as glm::vec3. -/
structure Vec3 where
  x : ℚ
  y : ℚ
  z : ℚ
deriving DecidableEq

/-- Four floats, as glm::vec4: one column of a matrix. -/
structure Vec4 where
  x : ℚ
  y : ℚ
  z : ℚ
  w : ℚ
deriving DecidableEq

/-- Column-major 4x4 matrix, as glm::mat4: `c3` is the translation column. -/
structure Mat4 where
  c0 : Vec4
  c1 : Vec4
  c2 : Vec4
  c3 : Vec4
deriving DecidableEq

/-- Column times scalar. -/
def Vec4.smul (v : Vec4) (k : ℚ) : Vec4 := ⟨v.x * k, v.y * k, v.z * k, v.w * k⟩

/-- Sum of two columns. -/
def Vec4.add (a b : Vec4) : Vec4 := ⟨a.x + b.x, a.y + b.y, a.z + b.z, a.w + b.w⟩

/-- The constructor glm::vec3(s): all three components equal. -/
def vec3_splat (s : ℚ) : Vec3 := ⟨s, s, s⟩

/-- The constructor glm::mat4(d): `d` on the diagonal, zero elsewhere. -/
def mat4_diag (d : ℚ) : Mat4 :=
  ⟨⟨d, 0, 0, 0⟩, ⟨0, d, 0, 0⟩, ⟨0, 0, d, 0⟩, ⟨0, 0, 0, d⟩⟩

/-- The function glm::translate(m, v):
`Result = m; Result[3] = m[0] * v[0] + m[1] * v[1] + m[2] * v[2] + m[3]`. -/
def glm_translate (m : Mat4) (v : Vec3) : Mat4 :=
  { m with c3 := (((m.c0.smul v.x).add (m.c1.smul v.y)).add (m.c2.smul v.z)).add m.c3 }

/-- The function glm::scale(m, v):
`Result[0] = m[0] * v[0]; Result[1] = m[1] * v[1]; Result[2] = m[2] * v[2]; Result[3] = m[3]`. -/
def glm_scale (m : Mat4) (v : Vec3) : Mat4 :=
  ⟨m.c0.smul v.x, m.c1.smul v.y, m.c2.smul v.z, m.c3⟩

/-! ## Platform input -/

/-- The four states of a key or mouse button (engine::platform::Key::State). -/
inductive KeyState where
  | Released
  | JustPressed
  | Pressed
  | JustReleased
deriving DecidableEq

/-- The keys and buttons the controller asks about. -/
inductive KeyId where
  | KEY_F1
  | KEY_P
  | KEY_ESCAPE
  | KEY_W
  | KEY_S
  | KEY_A
  | KEY_D
  | KEY_LEFT_SHIFT
  | KEY_SPACE
  | KEY_V
  | KEY_1
  | KEY_2
  | MOUSE_BUTTON_LEFT
deriving DecidableEq

/-- Mouse movement of the current frame (`platform->mouse()`). -/
structure MouseData where
  dx : ℚ
  dy : ℚ

/-- What the platform controller answers during one frame:
`platform->key(k).state()`, `platform->mouse()` and `platform->dt()`. -/
structure Platform where
  key : KeyId → KeyState
  mouse : MouseData
  dt : ℚ

/-! ## Camera, targets, lights -/

/-- The camera of the graphics controller.  `Position`, `Front`,
`MovementSpeed`, `Zoom` and `Jump` are the members the two source files touch;
the others stand for the rest of its pose. -/
structure Camera where
  Position : Vec3
  Front : Vec3
  Up : Vec3
  Right : Vec3
  Yaw : ℚ
  Pitch : ℚ
  MovementSpeed : ℚ
  Zoom : ℚ
  Jump : Bool
  JumpVelocity : ℚ
deriving DecidableEq

/-- Axis-aligned box: minimum and maximum corner. -/
structure BoundingBox where
  min : Vec3
  max : Vec3
deriving DecidableEq

/-- One target.  `m_active` is the member the controller reads and writes;
the model name and the position are the constructor's two arguments; the box
is what `calculate_bounding_box` leaves behind, absent until computed. -/
structure Target where
  m_model : String
  m_position : Vec3
  m_active : Bool
  m_box : Option BoundingBox
deriving DecidableEq

/-- Modelled from the spec: the constructor `Target(model, position)` is
declared outside the source files; a new target is inactive and has no
bounding box ("creates one Target per position, all initially inactive"). -/
def Target.new (model : String) (position : Vec3) : Target :=
  ⟨model, position, false, none⟩

/-- The spotlight carried by the controller (`m_spotlight`). -/
structure SpotLight where
  position : Vec3
  direction : Vec3
  ambient : Vec3
  diffuse : Vec3
  specular : Vec3
  inner_cut_off : ℚ
  outer_cut_off : ℚ
  constant : ℚ
  linear : ℚ
  quadratic : ℚ
  lamp_on : Int
deriving DecidableEq

/-- The ray rebuilt every frame (`m_raycast`). -/
structure Raycast where
  origin : Vec3
  dir : Vec3
deriving DecidableEq

/-- What a loop over the targets did to the target at an index. -/
inductive Event where
  | write_active (i : Nat) (v : Bool)
  | calculate_bounding_box (i : Nat)
  | check_boundingbox_intersect (i : Nat)
  | target_update (i : Nat)
deriving DecidableEq

/-- The member functions and constants of `Camera` and `Target` that the
controller calls and that are declared outside the source files. -/
structure Engine where
  RUN : ℚ
  WALK : ℚ
  Camera_move_fps_camera : Camera → Bool → Bool → Bool → Bool → ℚ → Camera
  Camera_rotate_camera : Camera → ℚ → ℚ → Camera
  Camera_update_jump : Camera → ℚ → Camera
  Target_update : Target → ℚ → Target
  Target_calculate_bounding_box : Target → Target
  Target_check_boundingbox_intersect : Target → Vec3 → Vec3 → Bool

/-- The state the controller works on: its own members, the camera of the
graphics controller, the cursor switch of the platform, and the trace. -/
structure State where
  camera : Camera
  cursor_enabled : Bool
  m_cursor_enable : Bool
  m_spotlight : SpotLight
  m_raycast : Raycast
  m_targets : List Target
  m_amount_tree : Nat
  m_model_tree : List Mat4
  trace : List Event

/-! ## The instanced trees -/

/-- The array literal `offsets` of `set_instanced_tree`, entry by entry. -/
def tree_offsets : List Vec3 :=
  [ ⟨2.8, -0.5, 0.0⟩,
    ⟨3.7, -0.5, 0.2⟩,
    ⟨3.7, -0.5, -0.4⟩,
    ⟨4.1, -0.5, -1.0⟩,
    ⟨4.2, -0.5, -0.8⟩,
    ⟨4.3, -0.5, -1.3⟩,
    ⟨3.3, -0.5, 1.1⟩,
    ⟨3.8, -0.5, 1.4⟩,
    ⟨3.9, -0.5, 1.8⟩,
    ⟨3.8, -0.5, 2.2⟩,
    ⟨4.1, -0.5, -1.7⟩,
    ⟨4.2, -0.5, -2.0⟩,
    ⟨4.0, -0.5, -2.3⟩,
    ⟨4.0, -0.5, -1.8⟩,
    ⟨3.7, -0.5, -2.9⟩,
    ⟨3.5, -0.5, 3.1⟩,
    ⟨4.1, -0.5, 3.5⟩,
    ⟨3.8, -0.5, 3.9⟩,
    ⟨3.1, -0.5, -3.6⟩,
    ⟨2.6, -0.5, -4.0⟩,
    ⟨2.1, -0.5, -4.1⟩,
    ⟨1.6, -0.5, -3.7⟩,
    ⟨1.3, -0.5, -3.9⟩,
    ⟨1.2, -0.5, -2.9⟩,
    ⟨0.7, -0.5, -4.0⟩,
    ⟨0.1, -0.5, -3.4⟩,
    ⟨-0.4, -0.5, -3.7⟩,
    ⟨-0.8, -0.5, -4.0⟩,
    ⟨-1.5, -0.5, -3.3⟩,
    ⟨-2.2, -0.5, -3.8⟩,
    ⟨-2.8, -0.5, -3.4⟩,
    ⟨-3.3, -0.5, -3.4⟩,
    ⟨-4.0, -0.5, -4.0⟩,
    ⟨-4.4, -0.5, -3.5⟩,
    ⟨-4.9, -0.5, -3.1⟩ ]

/-- One pass of the loop body of `set_instanced_tree`:
`model = mat4(1); model = translate(model, offsets[i]);
model = scale(model, scale_factor); m_model_tree[i] = model`.
Reading `offsets[i]` past the end of the literal is outside C++; it reads the
zero vector here. -/
def set_instanced_tree_body (offsets : List Vec3) (scale_factor : Vec3)
    (m_model_tree : List Mat4) (i : Nat) : List Mat4 :=
  let model := mat4_diag 1
  let model := glm_translate model (offsets.getD i ⟨0, 0, 0⟩)
  let model := glm_scale model scale_factor
  m_model_tree.set i model

/-- The loop `for (i = 0; i < amount; i++)` of `set_instanced_tree` over a
freshly allocated array of `amount` matrices (`new glm::mat4[amount]`, every
slot of which the loop overwrites). -/
def set_instanced_tree_loop (offsets : List Vec3) (scale_factor : Vec3) (amount : Nat) :
    List Mat4 :=
  (List.range amount).foldl (set_instanced_tree_body offsets scale_factor)
    (List.replicate amount (mat4_diag 0))

/-- The function `MainController::set_instanced_tree`. -/
def set_instanced_tree (s : State) : State :=
  let m_amount_tree := 34
  let scale_factor : Vec3 := ⟨0.5, 0.5, 0.5⟩
  { s with
    m_amount_tree := m_amount_tree
    m_model_tree := set_instanced_tree_loop tree_offsets scale_factor m_amount_tree }

/-! ## The targets -/

/-- The function `MainController::set_targets`: five `emplace_back` calls. -/
def set_targets (s : State) : State :=
  let model := "target"
  let m_targets := s.m_targets ++ [Target.new model ⟨-0.2, -0.5, 0.3⟩]
  let m_targets := m_targets ++ [Target.new model ⟨2.0, -0.5, 1.2⟩]
  let m_targets := m_targets ++ [Target.new model ⟨0.6, -0.5, 2.0⟩]
  let m_targets := m_targets ++ [Target.new model ⟨-1.2, -0.5, -1.0⟩]
  let m_targets := m_targets ++ [Target.new model ⟨1.3, -0.5, -1.5⟩]
  { s with m_targets := m_targets }

/-- The loop `for (auto &target : m_targets) { ... }`: the body is run on every
target in order, starting at index `i`; it returns the target as the body
leaves it and what the body did, and the loop returns the targets and the
concatenation of these records. -/
def for_each_target (body : Nat → Target → Target × List Event) :
    Nat → List Target → List Target × List Event
  | _, [] => ([], [])
  | i, t :: ts =>
    let r := body i t
    let rest := for_each_target body (i + 1) ts
    (r.1 :: rest.1, r.2 ++ rest.2)

/-- Run a loop over `m_targets` and append its record to the trace. -/
def State.run_target_loop (s : State) (body : Nat → Target → Target × List Event) : State :=
  let r := for_each_target body 0 s.m_targets
  { s with m_targets := r.1, trace := s.trace ++ r.2 }

/-- Body of `awake_targets`: `target.m_active = true`. -/
def awake_targets_body (i : Nat) (target : Target) : Target × List Event :=
  ({ target with m_active := true }, [Event.write_active i true])

/-- The function `MainController::awake_targets`. -/
def awake_targets (s : State) : State :=
  s.run_target_loop awake_targets_body

/-- Body of `update_targets`: `target.update(dt)`. -/
def update_targets_body (E : Engine) (dt : ℚ) (i : Nat) (target : Target) :
    Target × List Event :=
  (E.Target_update target dt, [Event.target_update i])

/-- The function `MainController::update_targets`. -/
def update_targets (E : Engine) (s : State) (P : Platform) : State :=
  s.run_target_loop (update_targets_body E P.dt)

/-- Body of `create_boundingbox_targets`:
`if (target.m_active) { target.calculate_bounding_box(); }`. -/
def create_boundingbox_targets_body (E : Engine) (i : Nat) (target : Target) :
    Target × List Event :=
  if target.m_active then
    (E.Target_calculate_bounding_box target, [Event.calculate_bounding_box i])
  else
    (target, [])

/-- The function `MainController::create_boundingbox_targets`. -/
def create_boundingbox_targets (E : Engine) (s : State) : State :=
  s.run_target_loop (create_boundingbox_targets_body E)

/-- Body of the loop of `check_boundingbox_intersects`:
`if (target.check_boundingbox_intersect(origin, dir)) { target.m_active = false; }`. -/
def check_boundingbox_intersects_body (E : Engine) (origin dir : Vec3) (i : Nat)
    (target : Target) : Target × List Event :=
  if E.Target_check_boundingbox_intersect target origin dir then
    ({ target with m_active := false },
      [Event.check_boundingbox_intersect i, Event.write_active i false])
  else
    (target, [Event.check_boundingbox_intersect i])

/-- The function `MainController::check_boundingbox_intersects`. -/
def check_boundingbox_intersects (E : Engine) (s : State) (P : Platform) : State :=
  if P.key KeyId.MOUSE_BUTTON_LEFT = KeyState.JustPressed then
    s.run_target_loop
      (check_boundingbox_intersects_body E s.m_raycast.origin s.m_raycast.dir)
  else
    s

/-! ## Events and the per-frame update -/

/-- The function `MainController::poll_events`. -/
def poll_events (E : Engine) (s : State) (P : Platform) : State :=
  let s :=
    if P.key KeyId.KEY_F1 = KeyState.JustPressed then
      let m_cursor_enable := !s.m_cursor_enable
      { s with m_cursor_enable := m_cursor_enable, cursor_enabled := m_cursor_enable }
    else s
  if P.key KeyId.KEY_P = KeyState.JustPressed then
    create_boundingbox_targets E (awake_targets s)
  else s

/-- The function `MainController::loop`: false ends the frame loop. -/
def loop (P : Platform) : Bool :=
  if P.key KeyId.KEY_ESCAPE = KeyState.JustPressed then false else true

/-- The function `MainController::update_fps_camera`. -/
def update_fps_camera (E : Engine) (s : State) (P : Platform) : State :=
  let dt := P.dt
  let camera := E.Camera_move_fps_camera s.camera
    (decide (P.key KeyId.KEY_W = KeyState.Pressed))
    (decide (P.key KeyId.KEY_S = KeyState.Pressed))
    (decide (P.key KeyId.KEY_D = KeyState.Pressed))
    (decide (P.key KeyId.KEY_A = KeyState.Pressed))
    dt
  let mouse := P.mouse
  { s with camera := E.Camera_rotate_camera camera mouse.dx mouse.dy }

/-- The function `MainController::update_speed`. -/
def update_speed (E : Engine) (s : State) (P : Platform) : State :=
  let camera := s.camera
  let camera :=
    if P.key KeyId.KEY_LEFT_SHIFT = KeyState.JustPressed then
      { camera with MovementSpeed := E.RUN }
    else camera
  let camera :=
    if P.key KeyId.KEY_LEFT_SHIFT = KeyState.JustReleased then
      { camera with MovementSpeed := E.WALK }
    else camera
  { s with camera := camera }

/-- First statement of `MainController::update_jump`:
`if (!camera->Jump && key(KEY_SPACE).state() == JustPressed) { camera->Jump = true; }`.
The result is the camera on which `update_jump(dt)` is then called. -/
def update_jump_flag (camera : Camera) (P : Platform) : Camera :=
  if (!camera.Jump) && decide (P.key KeyId.KEY_SPACE = KeyState.JustPressed) then
    { camera with Jump := true }
  else camera

/-- The function `MainController::update_jump`. -/
def update_jump (E : Engine) (s : State) (P : Platform) : State :=
  { s with camera := E.Camera_update_jump (update_jump_flag s.camera P) P.dt }

/-- The function `MainController::update_spotlight`. -/
def update_spotlight (s : State) (P : Platform) : State :=
  let camera := s.camera
  let m_spotlight := { s.m_spotlight with position := camera.Position }
  let m_spotlight := { m_spotlight with direction := camera.Front }
  let m_spotlight :=
    if P.key KeyId.KEY_V = KeyState.JustPressed then
      { m_spotlight with lamp_on := 1 - m_spotlight.lamp_on }
    else m_spotlight
  let m_spotlight :=
    if P.key KeyId.KEY_1 = KeyState.JustPressed then
      { m_spotlight with
        diffuse := vec3_splat 0.6
        specular := vec3_splat 0.6
        linear := 0.22
        quadratic := 0.20 }
    else m_spotlight
  let m_spotlight :=
    if P.key KeyId.KEY_2 = KeyState.JustPressed then
      { m_spotlight with
        diffuse := vec3_splat 1.0
        specular := vec3_splat 1.0
        linear := 0.09
        quadratic := 0.032 }
    else m_spotlight
  { s with m_spotlight := m_spotlight }

/-- The function `MainController::update_raycast`. -/
def update_raycast (s : State) : State :=
  let camera := s.camera
  let m_raycast := { s.m_raycast with origin := camera.Position }
  let m_raycast := { m_raycast with dir := camera.Front }
  { s with m_raycast := m_raycast }

/-- The function `MainController::update`: seven calls in this order. -/
def update (E : Engine) (s : State) (P : Platform) : State :=
  let s := update_fps_camera E s P
  let s := update_speed E s P
  let s := update_jump E s P
  let s := update_spotlight s P
  let s := update_raycast s
  let s := update_targets E s P
  check_boundingbox_intersects E s P

/-- The first six calls of `update`: the state in which
`check_boundingbox_intersects` is entered. -/
def update_until_check (E : Engine) (s : State) (P : Platform) : State :=
  let s := update_fps_camera E s P
  let s := update_speed E s P
  let s := update_jump E s P
  let s := update_spotlight s P
  let s := update_raycast s
  update_targets E s P

/-- The first three calls of `update`, which move the camera: movement and
rotation, speed, jump. -/
def update_pose (E : Engine) (s : State) (P : Platform) : State :=
  let s := update_fps_camera E s P
  let s := update_speed E s P
  update_jump E s P

/-- One frame of the host loop: `poll_events` followed by `update`. -/
def frame (E : Engine) (s : State) (P : Platform) : State :=
  update E (poll_events E s P) P

/-- The frame loop over the platform answers of successive frames. -/
def run_frames (E : Engine) (s : State) (frames : List Platform) : State :=
  frames.foldl (frame E) s

/-! ## Reading the trace -/

/-- Effect of one trace entry on "the box of target `i` was calculated after
the last time its flag was set": setting the flag clears it, calculating the
box sets it, everything else leaves it. -/
def bounds_fresh_step (i : Nat) (b : Bool) : Event → Bool
  | Event.write_active j true => if j = i then false else b
  | Event.calculate_bounding_box j => if j = i then true else b
  | _ => b

/-- Whether, reading the trace from its oldest entry, `calculate_bounding_box`
was called on target `i` after the last write of `true` to its flag. -/
def bounds_fresh (trace : List Event) (i : Nat) : Bool :=
  trace.foldl (bounds_fresh_step i) false

/-- The same as a statement about the trace: it splits at a call of
`calculate_bounding_box` on target `i` after which the flag of target `i` is
not set again. -/
def calculated_since_activation (trace : List Event) (i : Nat) : Prop :=
  ∃ pre post, trace = pre ++ Event.calculate_bounding_box i :: post ∧
    Event.write_active i true ∉ post

/-- The invariant of the frame loop: every active target has a fresh box. -/
def active_targets_fresh (s : State) : Prop :=
  ∀ (i : Nat) (t : Target), s.m_targets[i]? = some t → t.m_active = true →
    bounds_fresh s.trace i = true

/-! ## Concrete inputs -/

/-- An implementation of the outside functions, for running the controller on
concrete inputs: the camera functions leave the camera alone, a target update
leaves the target alone, the bounding box is the degenerate box at the
target's position, and the hit test answers true exactly for a target placed
at the ray's origin. -/
def sample_engine : Engine where
  RUN := 5
  WALK := 2
  Camera_move_fps_camera := fun c _ _ _ _ _ => c
  Camera_rotate_camera := fun c _ _ => c
  Camera_update_jump := fun c _ => c
  Target_update := fun t _ => t
  Target_calculate_bounding_box := fun t => { t with m_box := some ⟨t.m_position, t.m_position⟩ }
  Target_check_boundingbox_intersect := fun t origin _ => decide (t.m_position = origin)

/-- A camera standing on the first target's position and looking down -Z. -/
def sample_camera : Camera :=
  ⟨⟨-0.2, -0.5, 0.3⟩, ⟨0, 0, -1⟩, ⟨0, 1, 0⟩, ⟨1, 0, 0⟩, -90, 0, 2, 45, false, 0⟩

/-- A spotlight with all members zero. -/
def sample_spotlight : SpotLight :=
  ⟨⟨0, 0, 0⟩, ⟨0, 0, 0⟩, ⟨0, 0, 0⟩, ⟨0, 0, 0⟩, ⟨0, 0, 0⟩, 0, 0, 0, 0, 0, 0⟩

/-- A controller before `initialize`: no targets, no trees, empty trace. -/
def sample_state : State :=
  { camera := sample_camera
    cursor_enabled := false
    m_cursor_enable := false
    m_spotlight := sample_spotlight
    m_raycast := ⟨⟨-0.2, -0.5, 0.3⟩, ⟨0, 0, -1⟩⟩
    m_targets := []
    m_amount_tree := 0
    m_model_tree := []
    trace := [] }

/-- A frame in which nothing is pressed. -/
def idle_platform : Platform :=
  ⟨fun _ => KeyState.Released, ⟨0, 0⟩, 1 / 60⟩

/-- A frame in which exactly the key or button `k` has just been pressed. -/
def just_pressed (k : KeyId) : Platform :=
  ⟨fun j => if j = k then KeyState.JustPressed else KeyState.Released, ⟨0, 0⟩, 1 / 60⟩

/-- The sample controller after `set_targets`, `awake_targets` and
`create_boundingbox_targets`: five active targets with boxes. -/
def sample_range : State :=
  create_boundingbox_targets sample_engine (awake_targets (set_targets sample_state))

/-- The first target of the sample range. -/
def sample_target_0 : Target :=
  ⟨"target", ⟨-0.2, -0.5, 0.3⟩, true, some ⟨⟨-0.2, -0.5, 0.3⟩, ⟨-0.2, -0.5, 0.3⟩⟩⟩

/-- The first target right after `set_targets` and `awake_targets`: active,
no box yet. -/
def sample_active_target_0 : Target :=
  ⟨"target", ⟨-0.2, -0.5, 0.3⟩, true, none⟩

/-! ## The bounding box of a target -/

/-- Modelled from the spec: `Target::calculate_bounding_box` is defined outside
the source files.  It "derives an axis-aligned box from the target's
transformed mesh extents (model-space bounds transformed by position/scale)":
the corners of the model-space bounds are scaled and moved to the target's
position and stored as the target's box; no other member is written. -/
def Target.calculate_bounding_box (bounds : BoundingBox) (scale : Vec3) (t : Target) : Target :=
  { t with
    m_box := some
      ⟨⟨t.m_position.x + bounds.min.x * scale.x,
        t.m_position.y + bounds.min.y * scale.y,
        t.m_position.z + bounds.min.z * scale.z⟩,
       ⟨t.m_position.x + bounds.max.x * scale.x,
        t.m_position.y + bounds.max.y * scale.y,
        t.m_position.z + bounds.max.z * scale.z⟩⟩ }

/-- Modelled from the spec: an engine whose `calculate_bounding_box` is the one
the spec describes, for a model with the given model-space bounds and scale;
the other outside functions stay those of `E`. -/
def Engine.with_calculate_bounding_box (E : Engine) (bounds : BoundingBox) (scale : Vec3) :
    Engine :=
  { E with Target_calculate_bounding_box := Target.calculate_bounding_box bounds scale }

/-! ## Projection parameters (GraphicsController) -/

/-- The perspective parameters of the graphics controller
(`m_perspective_params`), with the five members `initialize` assigns. -/
structure PerspectiveMatrixParams where
  FOV : ℚ
  Width : ℚ
  Height : ℚ
  Near : ℚ
  Far : ℚ
deriving DecidableEq

/-- The orthographic parameters of the graphics controller
(`m_ortho_params`), with the six members `initialize` assigns. -/
structure OrthographicMatrixParams where
  Left : ℚ
  Right : ℚ
  Bottom : ℚ
  Top : ℚ
  Near : ℚ
  Far : ℚ
deriving DecidableEq

/-- The members of the graphics controller the source file works on. -/
structure GraphicsController where
  m_camera : Camera
  m_perspective_params : PerspectiveMatrixParams
  m_ortho_params : OrthographicMatrixParams
deriving DecidableEq

/-- Modelled from the spec: the aspect is computed where the projection matrix
is built, in a header outside the source files; it is "derived from viewport
width/height", the quotient of the perspective `Width` and `Height`. -/
def PerspectiveMatrixParams.aspect (p : PerspectiveMatrixParams) : ℚ :=
  p.Width / p.Height

/-- The assignments to the projection parameters in
`GraphicsController::initialize`, for a window of the given width and height.
The function glm::radians is passed in as `radians`. -/
def initialize_projection (radians : ℚ → ℚ) (g : GraphicsController)
    (window_width window_height : Int) : GraphicsController :=
  let persp := g.m_perspective_params
  let persp := { persp with FOV := radians g.m_camera.Zoom }
  let persp := { persp with Width := (window_width : ℚ) }
  let persp := { persp with Height := (window_height : ℚ) }
  let persp := { persp with Near := 0.1 }
  let persp := { persp with Far := 100 }
  let ortho := g.m_ortho_params
  let ortho := { ortho with Bottom := 0.0 }
  let ortho := { ortho with Top := (window_height : ℚ) }
  let ortho := { ortho with Left := 0.0 }
  let ortho := { ortho with Right := (window_width : ℚ) }
  let ortho := { ortho with Near := 0.1 }
  let ortho := { ortho with Far := 100.0 }
  { g with m_perspective_params := persp, m_ortho_params := ortho }

/-- The function `GraphicsPlatformEventObserver::on_window_resize`: four
assignments, each a `static_cast<float>` of an `int` argument. -/
def on_window_resize (g : GraphicsController) (width height : Int) : GraphicsController :=
  let persp := g.m_perspective_params
  let persp := { persp with Width := (width : ℚ) }
  let persp := { persp with Height := (height : ℚ) }
  let ortho := g.m_ortho_params
  let ortho := { ortho with Right := (width : ℚ) }
  let ortho := { ortho with Top := (height : ℚ) }
  { g with m_perspective_params := persp, m_ortho_params := ortho }

/-! ## Drawing the instanced trees -/

/-- A call the controller makes on a shader, a light or a model while drawing.
Shaders and models are named as the resources controller names them.  A
matrix uniform is recorded without its value, which comes from functions
outside the source files. -/
inductive GfxCall where
  | Shader_use (shader : String)
  | Shader_set_mat4 (shader : String) (uniform : String)
  | Shader_set_float (shader : String) (uniform : String) (value : ℚ)
  | Shader_set_vec3 (shader : String) (uniform : String) (value : Vec3)
  | Light_apply (light : String) (shader : String) (uniform : String)
  | Model_set_instanced_draw (model : String) (model_matrix : List Mat4) (amount : Nat)
  | Model_instanced_draw (model : String) (shader : String) (amount : Nat)
deriving DecidableEq

/-- Whether a call hands a transform buffer to a model for setup
(`Model::set_instanced_draw`). -/
def GfxCall.is_setup : GfxCall → Bool
  | GfxCall.Model_set_instanced_draw _ _ _ => true
  | _ => false

/-- Whether a call is a batched draw request (`Model::instanced_draw`). -/
def GfxCall.is_instanced_draw : GfxCall → Bool
  | GfxCall.Model_instanced_draw _ _ _ => true
  | _ => false

/-- The function `GraphicsController::instanced_draw`:
`model->set_instanced_draw(model_matrix, amount); model->instanced_draw(shader, amount);`. -/
def GraphicsController_instanced_draw (model shader : String) (model_matrix : List Mat4)
    (amount : Nat) : List GfxCall :=
  [GfxCall.Model_set_instanced_draw model model_matrix amount,
   GfxCall.Model_instanced_draw model shader amount]

/-- The function `MainController::draw_instanced_tree`: the calls it makes, in
order. -/
def draw_instanced_tree (s : State) : List GfxCall :=
  let shader := "tree"
  let tree := "tree"
  [GfxCall.Shader_use shader,
   GfxCall.Shader_set_mat4 shader "projection",
   GfxCall.Shader_set_mat4 shader "view",
   GfxCall.Light_apply "m_dirlight" shader "dirlight",
   GfxCall.Light_apply "m_spotlight" shader "spotlight",
   GfxCall.Shader_set_float shader "shininess" 8.0,
   GfxCall.Shader_set_vec3 shader "viewPos" s.camera.Position]
  ++ GraphicsController_instanced_draw tree shader s.m_model_tree s.m_amount_tree

/-- The calls `draw_instanced_tree` makes over successive frames of the host
loop, each frame being `poll_events`, `update`, then the draw. -/
def frame_draws (E : Engine) : State → List Platform → List GfxCall
  | _, [] => []
  | s, P :: frames =>
    let s := frame E s P
    draw_instanced_tree s ++ frame_draws E s frames

/-- A graphics controller with the sample camera and all parameters zero. -/
def sample_graphics : GraphicsController :=
  ⟨sample_camera, ⟨0, 0, 0, 0, 0⟩, ⟨0, 0, 0, 0, 0, 0⟩⟩

/-! ## Lemmas on the tree loop -/

/-- Translating the identity and scaling uniformly gives the matrix with the
scale on the diagonal and the offset in the translation column. -/
theorem glm_scale_translate_identity (v : Vec3) (k : ℚ) :
    glm_scale (glm_translate (mat4_diag 1) v) ⟨k, k, k⟩ =
      ⟨⟨k, 0, 0, 0⟩, ⟨0, k, 0, 0⟩, ⟨0, 0, k, 0⟩, ⟨v.x, v.y, v.z, 1⟩⟩ := by
  simp [glm_scale, glm_translate, mat4_diag, Vec4.smul, Vec4.add]

/-- The body of the tree loop keeps the length of the array. -/
theorem set_instanced_tree_body_length (offsets : List Vec3) (sf : Vec3) (arr : List Mat4)
    (i : Nat) : (set_instanced_tree_body offsets sf arr i).length = arr.length := by
  simp [set_instanced_tree_body]

/-- After the first `k` passes of the tree loop the array has its length and
the slots below `k` hold their matrices. -/
theorem set_instanced_tree_prefix (offsets : List Vec3) (sf : Vec3) (init : List Mat4) (k : Nat)
    (hk : k ≤ init.length) :
    ((List.range k).foldl (set_instanced_tree_body offsets sf) init).length = init.length ∧
    ∀ i, i < k →
      ((List.range k).foldl (set_instanced_tree_body offsets sf) init)[i]? =
        some (glm_scale (glm_translate (mat4_diag 1) (offsets.getD i ⟨0, 0, 0⟩)) sf) := by
  induction k with
  | zero => simp
  | succ k ih =>
    obtain ⟨hlen, hget⟩ := ih (Nat.le_of_succ_le hk)
    rw [List.range_succ, List.foldl_append]
    refine ⟨?_, ?_⟩
    · simp [set_instanced_tree_body_length, hlen]
    · intro i hi
      simp only [List.foldl_cons, List.foldl_nil, set_instanced_tree_body]
      by_cases hik : i = k
      · subst hik
        rw [List.getElem?_set_self]
        rw [hlen]
        exact hk
      · rw [List.getElem?_set_ne (fun h => hik h.symm)]
        exact hget i (by omega)

/-- What the tree loop returns: `amount` matrices, the one at index `i` built
from `offsets[i]`. -/
theorem set_instanced_tree_loop_spec (offsets : List Vec3) (sf : Vec3) (amount : Nat) :
    (set_instanced_tree_loop offsets sf amount).length = amount ∧
    ∀ i, i < amount →
      (set_instanced_tree_loop offsets sf amount)[i]? =
        some (glm_scale (glm_translate (mat4_diag 1) (offsets.getD i ⟨0, 0, 0⟩)) sf) := by
  have h := set_instanced_tree_prefix offsets sf (List.replicate amount (mat4_diag 0)) amount
    (by simp)
  simpa [set_instanced_tree_loop] using h

/-! ## Lemmas on loops over the targets -/

/-- A loop over the targets returns as many targets as it was given. -/
theorem for_each_target_length (body : Nat → Target → Target × List Event) (k : Nat)
    (ts : List Target) : (for_each_target body k ts).1.length = ts.length := by
  induction ts generalizing k with
  | nil => rfl
  | cons t ts ih => simp [for_each_target, ih]

/-- The target at index `i` after a loop is the body's result on the target at
index `i` before it. -/
theorem for_each_target_getElem? (body : Nat → Target → Target × List Event) (k : Nat)
    (ts : List Target) (i : Nat) :
    (for_each_target body k ts).1[i]? = (ts[i]?).map (fun t => (body (k + i) t).1) := by
  induction ts generalizing k i with
  | nil => simp [for_each_target]
  | cons t ts ih =>
    cases i with
    | zero => simp [for_each_target]
    | succ j =>
      simp only [for_each_target, List.getElem?_cons_succ, ih]
      congr 1
      funext t
      rw [show k + 1 + j = k + (j + 1) by omega]

/-- An entry is in the record of a loop exactly when the body put it there at
some target. -/
theorem for_each_target_mem_events (body : Nat → Target → Target × List Event) (k : Nat)
    (ts : List Target) (e : Event) :
    e ∈ (for_each_target body k ts).2 ↔
      ∃ i t, ts[i]? = some t ∧ e ∈ (body (k + i) t).2 := by
  induction ts generalizing k with
  | nil => simp [for_each_target]
  | cons t ts ih =>
    simp only [for_each_target, List.mem_append, ih]
    constructor
    · rintro (h | ⟨i, u, hu, he⟩)
      · exact ⟨0, t, by simp, by simpa using h⟩
      · exact ⟨i + 1, u, by simpa using hu, by
          rw [show k + (i + 1) = k + 1 + i by omega]; exact he⟩
    · rintro ⟨i, u, hu, he⟩
      cases i with
      | zero =>
        left
        simp only [List.getElem?_cons_zero, Option.some.injEq] at hu
        subst hu
        simpa using he
      | succ j =>
        right
        refine ⟨j, u, by simpa using hu, ?_⟩
        rw [show k + 1 + j = k + (j + 1) by omega]; exact he

/-- The targets after a loop run on a state. -/
theorem run_target_loop_getElem? (s : State) (body : Nat → Target → Target × List Event)
    (i : Nat) :
    (s.run_target_loop body).m_targets[i]? = (s.m_targets[i]?).map (fun t => (body i t).1) := by
  simp [State.run_target_loop, for_each_target_getElem?]

/-- The trace after a loop run on a state: the old trace, then the record. -/
theorem run_target_loop_trace (s : State) (body : Nat → Target → Target × List Event) :
    (s.run_target_loop body).trace = s.trace ++ (for_each_target body 0 s.m_targets).2 := rfl

/-- An entry is in the record of a loop run on a state exactly when the body
put it there at some target. -/
theorem run_target_loop_mem_events (s : State) (body : Nat → Target → Target × List Event)
    (e : Event) :
    e ∈ (for_each_target body 0 s.m_targets).2 ↔
      ∃ i t, s.m_targets[i]? = some t ∧ e ∈ (body i t).2 := by
  simp [for_each_target_mem_events]

/-! ## The instanced trees: results -/

/-- C1 (the code at its only input): the array literal of `set_instanced_tree`
lists 35 offsets, while the function stores the count 34 and builds 34
matrices; the offset at index 34, the last one listed, gets no transform. -/
theorem set_instanced_tree_count (s : State) :
    tree_offsets.length = 35 ∧
    (set_instanced_tree s).m_amount_tree = 34 ∧
    (set_instanced_tree s).m_model_tree.length = 34 ∧
    (set_instanced_tree s).m_model_tree[34]? = none ∧
    tree_offsets[34]? = some ⟨-4.9, -0.5, -3.1⟩ := by
  have hlen : (set_instanced_tree s).m_model_tree.length = 34 :=
    (set_instanced_tree_loop_spec tree_offsets ⟨0.5, 0.5, 0.5⟩ 34).1
  refine ⟨rfl, rfl, hlen, ?_, rfl⟩
  rw [List.getElem?_eq_none_iff, hlen]

/-- C2: for every index below the stored count, the matrix at that index is
scale(translate(identity, offsets[i]), 0.5): the matrix with 0.5 on the
diagonal of its upper-left 3x3 block, no rotation terms, and offsets[i] as
translation column; slot i is built from offset i, so the order is that of
the offsets. -/
theorem set_instanced_tree_matrices (s : State) (i : Nat)
    (h : i < (set_instanced_tree s).m_amount_tree) :
    ∃ v, tree_offsets[i]? = some v ∧
      (set_instanced_tree s).m_model_tree[i]? =
        some (glm_scale (glm_translate (mat4_diag 1) v) ⟨0.5, 0.5, 0.5⟩) ∧
      (set_instanced_tree s).m_model_tree[i]? =
        some ⟨⟨0.5, 0, 0, 0⟩, ⟨0, 0.5, 0, 0⟩, ⟨0, 0, 0.5, 0⟩, ⟨v.x, v.y, v.z, 1⟩⟩ := by
  have h34 : i < 34 := h
  have hi : i < tree_offsets.length := by
    have : tree_offsets.length = 35 := rfl
    omega
  have hget := (set_instanced_tree_loop_spec tree_offsets ⟨0.5, 0.5, 0.5⟩ 34).2 i h34
  have hv : tree_offsets.getD i ⟨0, 0, 0⟩ = tree_offsets[i] := by
    simp [List.getD, List.getElem?_eq_getElem hi]
  refine ⟨tree_offsets[i], List.getElem?_eq_getElem hi, ?_, ?_⟩
  · rw [← hv]; exact hget
  · rw [← glm_scale_translate_identity, ← hv]; exact hget

/-- C2 at index 0: the first matrix carries the first offset (2.8, -0.5, 0). -/
theorem set_instanced_tree_matrices_witness :
    ∃ v, tree_offsets[0]? = some v ∧
      (set_instanced_tree sample_state).m_model_tree[0]? =
        some (glm_scale (glm_translate (mat4_diag 1) v) ⟨0.5, 0.5, 0.5⟩) ∧
      (set_instanced_tree sample_state).m_model_tree[0]? =
        some ⟨⟨0.5, 0, 0, 0⟩, ⟨0, 0.5, 0, 0⟩, ⟨0, 0, 0.5, 0⟩, ⟨v.x, v.y, v.z, 1⟩⟩ :=
  set_instanced_tree_matrices sample_state 0 (by decide)

/-! ## Hits -/

/-- C3: when the left mouse button is JustPressed, every target whose hit test
against the ray of the state answers true comes out of
`check_boundingbox_intersects` with its flag false and otherwise as it was,
whatever its index and however many others are hit. -/
theorem check_boundingbox_intersects_deactivates_all (E : Engine) (s : State) (P : Platform)
    (hP : P.key KeyId.MOUSE_BUTTON_LEFT = KeyState.JustPressed) (i : Nat) (t : Target)
    (ht : s.m_targets[i]? = some t)
    (hhit : E.Target_check_boundingbox_intersect t s.m_raycast.origin s.m_raycast.dir = true) :
    (check_boundingbox_intersects E s P).m_targets[i]? = some { t with m_active := false } ∧
    ∀ t', (check_boundingbox_intersects E s P).m_targets[i]? = some t' → t'.m_active = false := by
  have h : (check_boundingbox_intersects E s P).m_targets[i]? =
      some { t with m_active := false } := by
    simp [check_boundingbox_intersects, hP, run_target_loop_getElem?, ht,
      check_boundingbox_intersects_body, hhit]
  refine ⟨h, ?_⟩
  intro t' ht'
  rw [h] at ht'
  cases ht'
  rfl

/-- The scenario of five active targets, used by the next theorem. -/
theorem five_targets_aux (E : Engine) (origin dir : Vec3) (ts : List Target)
    (hpos : ts.map Target.m_position =
      [⟨-0.2, -0.5, 0.3⟩, ⟨2.0, -0.5, 1.2⟩, ⟨0.6, -0.5, 2.0⟩, ⟨-1.2, -0.5, -1.0⟩,
        ⟨1.3, -0.5, -1.5⟩])
    (hact : ∀ t ∈ ts, t.m_active = true)
    (hray : ∀ t ∈ ts, E.Target_check_boundingbox_intersect t origin dir = true ↔
      t.m_position = ⟨-0.2, -0.5, 0.3⟩) :
    (for_each_target (check_boundingbox_intersects_body E origin dir) 0 ts).1.map
        Target.m_active = [false, true, true, true, true] ∧
    (for_each_target (check_boundingbox_intersects_body E origin dir) 0 ts).1.map
        Target.m_position = ts.map Target.m_position := by
  rcases ts with _ | ⟨a, _ | ⟨b, _ | ⟨c, _ | ⟨d, _ | ⟨e, _ | ⟨f, r⟩⟩⟩⟩⟩⟩ <;>
    simp only [List.map_cons, List.map_nil, List.cons.injEq, and_true, reduceCtorEq,
      false_and, and_false] at hpos
  obtain ⟨ha, hb, hc, hd, he⟩ := hpos
  have h1 := hray a (by simp)
  have h2 := hray b (by simp)
  have h3 := hray c (by simp)
  have h4 := hray d (by simp)
  have h5 := hray e (by simp)
  rw [ha] at h1
  rw [hb] at h2
  rw [hc] at h3
  rw [hd] at h4
  rw [he] at h5
  norm_num [Vec3.mk.injEq] at h1 h2 h3 h4 h5
  have a2 := hact b (by simp)
  have a3 := hact c (by simp)
  have a4 := hact d (by simp)
  have a5 := hact e (by simp)
  simp [for_each_target, check_boundingbox_intersects_body, h1, h2, h3, h4, h5, a2, a3, a4, a5]

/-- Writing false to a flag that is false changes nothing. -/
theorem Target.deactivate_inactive (t : Target) (h : t.m_active = false) :
    { t with m_active := false } = t := by
  cases t
  simp_all

/-- C4: `check_boundingbox_intersects` keeps the number of targets, and for
every target list, ray and mouse state a target comes out either untouched or
with its flag set to false; a target that was inactive comes out untouched
(so never active), and so does a target the ray does not intersect.  With the
button JustPressed, five active targets at the positions of `set_targets` and a
ray whose hit test answers true only at (-0.2, -0.5, 0.3), the flags come out
as false, true, true, true, true, at unchanged positions. -/
theorem check_boundingbox_intersects_one_way (E : Engine) (s : State) (P : Platform) :
    (check_boundingbox_intersects E s P).m_targets.length = s.m_targets.length ∧
    (∀ (i : Nat) (t : Target), s.m_targets[i]? = some t →
      ∃ t', (check_boundingbox_intersects E s P).m_targets[i]? = some t' ∧
        (t' = t ∨ t' = { t with m_active := false }) ∧
        (t.m_active = false → t'.m_active = false ∧ t' = t) ∧
        (E.Target_check_boundingbox_intersect t s.m_raycast.origin s.m_raycast.dir = false →
          t' = t)) ∧
    (P.key KeyId.MOUSE_BUTTON_LEFT = KeyState.JustPressed →
      s.m_targets.map Target.m_position =
        [⟨-0.2, -0.5, 0.3⟩, ⟨2.0, -0.5, 1.2⟩, ⟨0.6, -0.5, 2.0⟩, ⟨-1.2, -0.5, -1.0⟩,
          ⟨1.3, -0.5, -1.5⟩] →
      (∀ t ∈ s.m_targets, t.m_active = true) →
      (∀ t ∈ s.m_targets,
        E.Target_check_boundingbox_intersect t s.m_raycast.origin s.m_raycast.dir = true ↔
          t.m_position = ⟨-0.2, -0.5, 0.3⟩) →
      (check_boundingbox_intersects E s P).m_targets.map Target.m_active =
          [false, true, true, true, true] ∧
        (check_boundingbox_intersects E s P).m_targets.map Target.m_position =
          s.m_targets.map Target.m_position) := by
  refine ⟨?_, ?_, ?_⟩
  · unfold check_boundingbox_intersects
    split
    · simp [State.run_target_loop, for_each_target_length]
    · rfl
  · intro i t ht
    by_cases hP : P.key KeyId.MOUSE_BUTTON_LEFT = KeyState.JustPressed
    · by_cases hhit :
        E.Target_check_boundingbox_intersect t s.m_raycast.origin s.m_raycast.dir = true
      · refine ⟨{ t with m_active := false }, ?_, Or.inr rfl, ?_, ?_⟩
        · simp [check_boundingbox_intersects, hP, run_target_loop_getElem?, ht,
            check_boundingbox_intersects_body, hhit]
        · intro h
          exact ⟨rfl, t.deactivate_inactive h⟩
        · intro h
          rw [hhit] at h
          cases h
      · refine ⟨t, ?_, Or.inl rfl, fun h => ⟨h, rfl⟩, fun _ => rfl⟩
        simp [check_boundingbox_intersects, hP, run_target_loop_getElem?, ht,
          check_boundingbox_intersects_body, hhit]
    · refine ⟨t, ?_, Or.inl rfl, fun h => ⟨h, rfl⟩, fun _ => rfl⟩
      simp [check_boundingbox_intersects, hP, ht]
  · intro hP hpos hact hray
    have h := five_targets_aux E s.m_raycast.origin s.m_raycast.dir s.m_targets hpos hact hray
    simpa [check_boundingbox_intersects, hP, State.run_target_loop] using h

/-- C4 on the sample range: five active targets with boxes, the ray starting
on the first target, the button just pressed. -/
theorem check_boundingbox_intersects_one_way_witness :
    (check_boundingbox_intersects sample_engine sample_range
        (just_pressed KeyId.MOUSE_BUTTON_LEFT)).m_targets.map Target.m_active =
      [false, true, true, true, true] ∧
    (check_boundingbox_intersects sample_engine sample_range
        (just_pressed KeyId.MOUSE_BUTTON_LEFT)).m_targets.map Target.m_position =
      sample_range.m_targets.map Target.m_position :=
  (check_boundingbox_intersects_one_way sample_engine sample_range
      (just_pressed KeyId.MOUSE_BUTTON_LEFT)).2.2
    (by decide)
    (by rfl)
    (by
      intro t ht
      simp [sample_range, create_boundingbox_targets, awake_targets, set_targets,
        State.run_target_loop, for_each_target, awake_targets_body,
        create_boundingbox_targets_body, sample_state, sample_engine, Target.new] at ht
      rcases ht with h | h | h | h | h <;> rw [h])
    (by
      intro t ht
      simp [sample_range, create_boundingbox_targets, awake_targets, set_targets,
        State.run_target_loop, for_each_target, awake_targets_body,
        create_boundingbox_targets_body, sample_state, sample_engine, Target.new] at ht
      rcases ht with h | h | h | h | h <;> rw [h] <;>
        norm_num [sample_range, create_boundingbox_targets, awake_targets, set_targets,
        State.run_target_loop, for_each_target, awake_targets_body,
        create_boundingbox_targets_body, sample_state, sample_engine, Vec3.mk.injEq])

/-- C3 on the sample range: the first target is hit and comes out inactive. -/
theorem check_boundingbox_intersects_deactivates_all_witness :
    (check_boundingbox_intersects sample_engine sample_range
        (just_pressed KeyId.MOUSE_BUTTON_LEFT)).m_targets[0]? =
      some { sample_target_0 with m_active := false } ∧
    ∀ t', (check_boundingbox_intersects sample_engine sample_range
        (just_pressed KeyId.MOUSE_BUTTON_LEFT)).m_targets[0]? = some t' →
      t'.m_active = false :=
  check_boundingbox_intersects_deactivates_all sample_engine sample_range
    (just_pressed KeyId.MOUSE_BUTTON_LEFT) (by decide) 0 sample_target_0 (by rfl)
    (by simp [sample_engine, sample_target_0, sample_range, create_boundingbox_targets,
      awake_targets, set_targets, State.run_target_loop, sample_state])

/-! ## Activation and bounding boxes -/

/-- A loop whose body keeps some attribute of every target keeps the list of
these attributes. -/
theorem for_each_target_map_keep {α : Type} (f : Target → α)
    (body : Nat → Target → Target × List Event) (hbody : ∀ i t, f (body i t).1 = f t)
    (k : Nat) (ts : List Target) : (for_each_target body k ts).1.map f = ts.map f := by
  induction ts generalizing k with
  | nil => rfl
  | cons t ts ih => simp [for_each_target, ih, hbody]

/-- A loop whose body changes a target the same way at every index is a map. -/
theorem for_each_target_eq_map (g : Target → Target)
    (body : Nat → Target → Target × List Event) (hbody : ∀ i t, (body i t).1 = g t)
    (k : Nat) (ts : List Target) : (for_each_target body k ts).1 = ts.map g := by
  induction ts generalizing k with
  | nil => rfl
  | cons t ts ih => simp [for_each_target, ih, hbody]

/-- The record of the loop of `awake_targets`: one write of true per index. -/
theorem awake_targets_events (k : Nat) (ts : List Target) :
    (for_each_target awake_targets_body k ts).2 =
      (List.range' k ts.length).map (fun i => Event.write_active i true) := by
  induction ts generalizing k with
  | nil => rfl
  | cons t ts ih => simp [for_each_target, ih, awake_targets_body, List.range'_succ]

/-- C7: `awake_targets` replaces every target by the same target with its flag
true, whatever the flag was; number, order, positions and boxes of the targets
are as before; all it does is one write of true per target, in index order, so
no call of `calculate_bounding_box` is among its steps; the rest of the state
is untouched. -/
theorem awake_targets_spec (s : State) :
    (awake_targets s).m_targets = s.m_targets.map (fun t => { t with m_active := true }) ∧
    (awake_targets s).m_targets.map Target.m_active =
      List.replicate s.m_targets.length true ∧
    (awake_targets s).m_targets.length = s.m_targets.length ∧
    (awake_targets s).m_targets.map Target.m_position = s.m_targets.map Target.m_position ∧
    (awake_targets s).m_targets.map Target.m_box = s.m_targets.map Target.m_box ∧
    (awake_targets s).trace =
      s.trace ++ (List.range s.m_targets.length).map (fun i => Event.write_active i true) ∧
    (∀ i, Event.calculate_bounding_box i ∉
      (List.range s.m_targets.length).map (fun i => Event.write_active i true)) ∧
    (awake_targets s).camera = s.camera ∧
    (awake_targets s).m_raycast = s.m_raycast ∧
    (awake_targets s).m_model_tree = s.m_model_tree ∧
    (awake_targets s).m_amount_tree = s.m_amount_tree := by
  have hmap : (awake_targets s).m_targets =
      s.m_targets.map (fun t => { t with m_active := true }) :=
    for_each_target_eq_map _ awake_targets_body (fun _ _ => rfl) 0 s.m_targets
  refine ⟨hmap, ?_, ?_, ?_, ?_, ?_, ?_, rfl, rfl, rfl, rfl⟩
  · rw [hmap, List.map_map]
    apply List.ext_getElem <;> simp
  · rw [hmap, List.length_map]
  · rw [hmap, List.map_map]; rfl
  · rw [hmap, List.map_map]; rfl
  · simp [awake_targets, run_target_loop_trace, awake_targets_events, List.range_eq_range']
  · simp

/-- The record of the loop of `create_boundingbox_targets` holds only calls of
`calculate_bounding_box`. -/
theorem create_boundingbox_targets_events (E : Engine) (s : State) (e : Event)
    (he : e ∈ (for_each_target (create_boundingbox_targets_body E) 0 s.m_targets).2) :
    ∃ i t, s.m_targets[i]? = some t ∧ t.m_active = true ∧
      e = Event.calculate_bounding_box i := by
  rw [run_target_loop_mem_events] at he
  obtain ⟨i, t, ht, hmem⟩ := he
  refine ⟨i, t, ht, ?_⟩
  unfold create_boundingbox_targets_body at hmem
  split at hmem
  · rename_i hact
    exact ⟨hact, by simpa using hmem⟩
  · simp at hmem

/-- What `create_boundingbox_targets` does whatever `calculate_bounding_box`
is: the calls are on exactly the active targets, an active target is replaced
by the result of the call, an inactive one is left as it is, and the function
makes no other step. -/
theorem create_boundingbox_targets_calls (E : Engine) (s : State) :
    ∃ evs, (create_boundingbox_targets E s).trace = s.trace ++ evs ∧
      (create_boundingbox_targets E s).m_targets.length = s.m_targets.length ∧
      (∀ (i : Nat) (t : Target), s.m_targets[i]? = some t → t.m_active = true →
        (create_boundingbox_targets E s).m_targets[i]? =
            some (E.Target_calculate_bounding_box t) ∧
          Event.calculate_bounding_box i ∈ evs) ∧
      (∀ (i : Nat) (t : Target), s.m_targets[i]? = some t → t.m_active = false →
        (create_boundingbox_targets E s).m_targets[i]? = some t ∧
          Event.calculate_bounding_box i ∉ evs) ∧
      (∀ e ∈ evs, ∃ i, e = Event.calculate_bounding_box i) := by
  refine ⟨(for_each_target (create_boundingbox_targets_body E) 0 s.m_targets).2, rfl,
    ?_, ?_, ?_, ?_⟩
  · simp [create_boundingbox_targets, State.run_target_loop, for_each_target_length]
  · intro i t ht hact
    refine ⟨?_, ?_⟩
    · simp [create_boundingbox_targets, run_target_loop_getElem?, ht,
        create_boundingbox_targets_body, hact]
    · rw [run_target_loop_mem_events]
      exact ⟨i, t, ht, by simp [create_boundingbox_targets_body, hact]⟩
  · intro i t ht hact
    refine ⟨?_, ?_⟩
    · simp [create_boundingbox_targets, run_target_loop_getElem?, ht,
        create_boundingbox_targets_body, hact]
    · intro hmem
      obtain ⟨j, u, hu, hua, hj⟩ := create_boundingbox_targets_events E s _ hmem
      cases hj
      rw [ht] at hu
      cases hu
      rw [hact] at hua
      cases hua
  · intro e he
    obtain ⟨j, u, _, _, hj⟩ := create_boundingbox_targets_events E s e he
    exact ⟨j, hj⟩

/-- When `calculate_bounding_box` keeps some attribute of its target,
`create_boundingbox_targets` keeps the list of these attributes. -/
theorem create_boundingbox_targets_keep {α : Type} (f : Target → α) (E : Engine)
    (hcalc : ∀ t, f (E.Target_calculate_bounding_box t) = f t) (s : State) :
    (create_boundingbox_targets E s).m_targets.map f = s.m_targets.map f := by
  apply for_each_target_map_keep
  intro i t
  unfold create_boundingbox_targets_body
  split
  · exact hcalc t
  · rfl

/-- C8: `create_boundingbox_targets` calls `calculate_bounding_box` on every
target that is active (stale box or not) and on no inactive target, and makes
no other step; this holds whatever `calculate_bounding_box` does.  With
`calculate_bounding_box` as the spec describes it, every active target comes
out with the box derived from the model bounds, its scale and its position and
is otherwise as before, every inactive target comes out as it was, box
included, and the active flags and positions of all targets are as before. -/
theorem create_boundingbox_targets_spec (E : Engine) (bounds : BoundingBox) (scale : Vec3)
    (s : State) :
    (∃ evs, (create_boundingbox_targets E s).trace = s.trace ++ evs ∧
      (create_boundingbox_targets E s).m_targets.length = s.m_targets.length ∧
      (∀ (i : Nat) (t : Target), s.m_targets[i]? = some t → t.m_active = true →
        (create_boundingbox_targets E s).m_targets[i]? =
            some (E.Target_calculate_bounding_box t) ∧
          Event.calculate_bounding_box i ∈ evs) ∧
      (∀ (i : Nat) (t : Target), s.m_targets[i]? = some t → t.m_active = false →
        (create_boundingbox_targets E s).m_targets[i]? = some t ∧
          Event.calculate_bounding_box i ∉ evs) ∧
      (∀ e ∈ evs, ∃ i, e = Event.calculate_bounding_box i)) ∧
    (create_boundingbox_targets (E.with_calculate_bounding_box bounds scale) s).m_targets.map
        Target.m_active = s.m_targets.map Target.m_active ∧
    (create_boundingbox_targets (E.with_calculate_bounding_box bounds scale) s).m_targets.map
        Target.m_position = s.m_targets.map Target.m_position ∧
    (∀ (i : Nat) (t : Target), s.m_targets[i]? = some t → t.m_active = true →
      (create_boundingbox_targets (E.with_calculate_bounding_box bounds scale) s).m_targets[i]? =
        some { t with
          m_box := some
            ⟨⟨t.m_position.x + bounds.min.x * scale.x,
              t.m_position.y + bounds.min.y * scale.y,
              t.m_position.z + bounds.min.z * scale.z⟩,
             ⟨t.m_position.x + bounds.max.x * scale.x,
              t.m_position.y + bounds.max.y * scale.y,
              t.m_position.z + bounds.max.z * scale.z⟩⟩ }) ∧
    (∀ (i : Nat) (t : Target), s.m_targets[i]? = some t → t.m_active = false →
      (create_boundingbox_targets (E.with_calculate_bounding_box bounds scale) s).m_targets[i]? =
        some t) := by
  refine ⟨create_boundingbox_targets_calls E s, ?_, ?_, ?_, ?_⟩
  · exact create_boundingbox_targets_keep Target.m_active _ (fun _ => rfl) s
  · exact create_boundingbox_targets_keep Target.m_position _ (fun _ => rfl) s
  · intro i t ht hact
    simp [create_boundingbox_targets, run_target_loop_getElem?, ht,
      create_boundingbox_targets_body, hact, Engine.with_calculate_bounding_box,
      Target.calculate_bounding_box]
  · intro i t ht hact
    simp [create_boundingbox_targets, run_target_loop_getElem?, ht,
      create_boundingbox_targets_body, hact]

/-- C8 on the sample controller right after `set_targets` and `awake_targets`,
for a model with bounds from (-1, -1, -1) to (1, 1, 1) at scale 0.5: the first
target, which is active, comes out with its box and is otherwise as before. -/
theorem create_boundingbox_targets_spec_witness :
    (create_boundingbox_targets
        (sample_engine.with_calculate_bounding_box ⟨⟨-1, -1, -1⟩, ⟨1, 1, 1⟩⟩ ⟨0.5, 0.5, 0.5⟩)
        (awake_targets (set_targets sample_state))).m_targets[0]? =
      some { sample_active_target_0 with
        m_box := some
          ⟨⟨sample_active_target_0.m_position.x + (-1) * 0.5,
            sample_active_target_0.m_position.y + (-1) * 0.5,
            sample_active_target_0.m_position.z + (-1) * 0.5⟩,
           ⟨sample_active_target_0.m_position.x + 1 * 0.5,
            sample_active_target_0.m_position.y + 1 * 0.5,
            sample_active_target_0.m_position.z + 1 * 0.5⟩⟩ } :=
  (create_boundingbox_targets_spec sample_engine ⟨⟨-1, -1, -1⟩, ⟨1, 1, 1⟩⟩ ⟨0.5, 0.5, 0.5⟩
      (awake_targets (set_targets sample_state))).2.2.2.1 0 sample_active_target_0
    (by rfl) (by rfl)

/-! ## Which targets are hit-tested -/

/-- With the button JustPressed the hit test is called on every target of the
list, whatever its flag. -/
theorem check_boundingbox_intersects_calls (E : Engine) (s : State) (P : Platform)
    (hP : P.key KeyId.MOUSE_BUTTON_LEFT = KeyState.JustPressed) (i : Nat)
    (hi : i < s.m_targets.length) :
    Event.check_boundingbox_intersect i ∈
      (for_each_target
        (check_boundingbox_intersects_body E s.m_raycast.origin s.m_raycast.dir) 0
        s.m_targets).2 ∧
    Event.check_boundingbox_intersect i ∈ (check_boundingbox_intersects E s P).trace := by
  have h : Event.check_boundingbox_intersect i ∈
      (for_each_target
        (check_boundingbox_intersects_body E s.m_raycast.origin s.m_raycast.dir) 0
        s.m_targets).2 := by
    rw [run_target_loop_mem_events]
    refine ⟨i, s.m_targets[i], List.getElem?_eq_getElem hi, ?_⟩
    unfold check_boundingbox_intersects_body
    split <;> simp
  refine ⟨h, ?_⟩
  simp only [check_boundingbox_intersects, hP, if_true, run_target_loop_trace]
  exact List.mem_append_right _ h

/-- C5 (the code at a failing input): right after `set_targets` the five
targets are inactive and have no bounding box; with the left button
JustPressed, `check_boundingbox_intersects` calls the hit test on each of the
five all the same, for every implementation of the hit test. -/
theorem check_boundingbox_intersects_tests_inactive (E : Engine) :
    (set_targets sample_state).m_targets.map Target.m_active =
      [false, false, false, false, false] ∧
    (set_targets sample_state).m_targets.map Target.m_box = [none, none, none, none, none] ∧
    Event.check_boundingbox_intersect 0 ∈
      (check_boundingbox_intersects E (set_targets sample_state)
        (just_pressed KeyId.MOUSE_BUTTON_LEFT)).trace ∧
    Event.check_boundingbox_intersect 1 ∈
      (check_boundingbox_intersects E (set_targets sample_state)
        (just_pressed KeyId.MOUSE_BUTTON_LEFT)).trace ∧
    Event.check_boundingbox_intersect 2 ∈
      (check_boundingbox_intersects E (set_targets sample_state)
        (just_pressed KeyId.MOUSE_BUTTON_LEFT)).trace ∧
    Event.check_boundingbox_intersect 3 ∈
      (check_boundingbox_intersects E (set_targets sample_state)
        (just_pressed KeyId.MOUSE_BUTTON_LEFT)).trace ∧
    Event.check_boundingbox_intersect 4 ∈
      (check_boundingbox_intersects E (set_targets sample_state)
        (just_pressed KeyId.MOUSE_BUTTON_LEFT)).trace := by
  have hP : (just_pressed KeyId.MOUSE_BUTTON_LEFT).key KeyId.MOUSE_BUTTON_LEFT =
      KeyState.JustPressed := rfl
  refine ⟨rfl, rfl, ?_, ?_, ?_, ?_, ?_⟩
  · exact (check_boundingbox_intersects_calls E (set_targets sample_state) _ hP 0 (by decide)).2
  · exact (check_boundingbox_intersects_calls E (set_targets sample_state) _ hP 1 (by decide)).2
  · exact (check_boundingbox_intersects_calls E (set_targets sample_state) _ hP 2 (by decide)).2
  · exact (check_boundingbox_intersects_calls E (set_targets sample_state) _ hP 3 (by decide)).2
  · exact (check_boundingbox_intersects_calls E (set_targets sample_state) _ hP 4 (by decide)).2

/-! ## Jump -/

/-- C9: the first statement of `update_jump` changes at most the jump flag of
the camera; the flag goes from false to true exactly when it was false and
SPACE is JustPressed; in every other key state, and when the camera is already
jumping, the camera is handed on as it was; and that camera is the one on which
the camera's own `update_jump(dt)` is called. -/
theorem update_jump_rising_edge (E : Engine) (s : State) (P : Platform) :
    (((s.camera.Jump = false ∧ (update_jump_flag s.camera P).Jump = true) ↔
      (s.camera.Jump = false ∧ P.key KeyId.KEY_SPACE = KeyState.JustPressed))) ∧
    (P.key KeyId.KEY_SPACE ≠ KeyState.JustPressed → update_jump_flag s.camera P = s.camera) ∧
    (s.camera.Jump = true → update_jump_flag s.camera P = s.camera) ∧
    update_jump_flag s.camera P =
      { s.camera with Jump := (update_jump_flag s.camera P).Jump } ∧
    (update_jump E s P).camera =
      E.Camera_update_jump (update_jump_flag s.camera P) P.dt := by
  refine ⟨?_, ?_, ?_, ?_, rfl⟩
  · unfold update_jump_flag
    by_cases hk : P.key KeyId.KEY_SPACE = KeyState.JustPressed <;>
      cases hj : s.camera.Jump <;> simp [hk, hj]
  · intro hk
    simp [update_jump_flag, hk]
  · intro hj
    simp [update_jump_flag, hj]
  · unfold update_jump_flag
    split <;> rfl

/-- C9 on the sample camera, which is not jumping: with SPACE held (Pressed,
not JustPressed) the camera is handed on unchanged. -/
theorem update_jump_rising_edge_witness :
    update_jump_flag sample_state.camera
        ⟨fun _ => KeyState.Pressed, ⟨0, 0⟩, 1 / 60⟩ = sample_state.camera :=
  (update_jump_rising_edge sample_engine sample_state
      ⟨fun _ => KeyState.Pressed, ⟨0, 0⟩, 1 / 60⟩).2.1 (by decide)

/-! ## The ray -/

/-- A loop over the targets touches neither the camera nor the ray. -/
theorem run_target_loop_frame (s : State) (body : Nat → Target → Target × List Event) :
    (s.run_target_loop body).camera = s.camera ∧
    (s.run_target_loop body).m_raycast = s.m_raycast := ⟨rfl, rfl⟩

/-- The hit check touches neither the camera nor the ray. -/
theorem check_boundingbox_intersects_frame (E : Engine) (s : State) (P : Platform) :
    (check_boundingbox_intersects E s P).camera = s.camera ∧
    (check_boundingbox_intersects E s P).m_raycast = s.m_raycast := by
  unfold check_boundingbox_intersects
  split
  · exact run_target_loop_frame _ _
  · exact ⟨rfl, rfl⟩

/-- C10: after `update` the ray starts at the camera's position and points
along the camera's front vector; the camera after `update` is the camera as
the first three calls (movement and rotation, speed, jump) leave it, so the
ray is built from the pose of this frame and nothing after `update_raycast`
changes pose or ray. -/
theorem update_ray_follows_camera (E : Engine) (s : State) (P : Platform) :
    (update E s P).m_raycast.origin = (update E s P).camera.Position ∧
    (update E s P).m_raycast.dir = (update E s P).camera.Front ∧
    (update E s P).camera = (update_pose E s P).camera ∧
    (update E s P).m_raycast =
      ⟨(update_pose E s P).camera.Position, (update_pose E s P).camera.Front⟩ := by
  have hc := check_boundingbox_intersects_frame E
    (update_targets E (update_raycast (update_spotlight
      (update_jump E (update_speed E (update_fps_camera E s P) P) P) P)) P) P
  have hu : update E s P = check_boundingbox_intersects E
    (update_targets E (update_raycast (update_spotlight
      (update_jump E (update_speed E (update_fps_camera E s P) P) P) P)) P) P := rfl
  rw [hu, hc.1, hc.2]
  exact ⟨rfl, rfl, rfl, rfl⟩

/-! ## Bounding boxes come before hit tests -/

/-- Entries that are neither a write of true to the flag of target `i` nor a
call of `calculate_bounding_box` on it leave the reading of the trace as it is. -/
theorem bounds_fresh_foldl_neutral (i : Nat) (evs : List Event) (b : Bool)
    (h : ∀ e ∈ evs, e ≠ Event.write_active i true ∧ e ≠ Event.calculate_bounding_box i) :
    evs.foldl (bounds_fresh_step i) b = b := by
  induction evs generalizing b with
  | nil => rfl
  | cons e evs ih =>
    have he := h e (by simp)
    have hstep : bounds_fresh_step i b e = b := by
      cases e with
      | write_active j v =>
        cases v with
        | false => rfl
        | true =>
          have hj : j ≠ i := fun hji => he.1 (by rw [hji])
          simp [bounds_fresh_step, hj]
      | calculate_bounding_box j =>
        have hj : j ≠ i := fun hji => he.2 (by rw [hji])
        simp [bounds_fresh_step, hj]
      | check_boundingbox_intersect j => rfl
      | target_update j => rfl
    rw [List.foldl_cons, hstep]
    exact ih b (fun e he => h e (List.mem_cons_of_mem _ he))

/-- Once the box is fresh it stays fresh until the flag is written true again. -/
theorem bounds_fresh_foldl_keep (i : Nat) (evs : List Event)
    (h : ∀ e ∈ evs, e ≠ Event.write_active i true) :
    evs.foldl (bounds_fresh_step i) true = true := by
  induction evs with
  | nil => rfl
  | cons e evs ih =>
    have he := h e (by simp)
    have hstep : bounds_fresh_step i true e = true := by
      cases e with
      | write_active j v =>
        cases v with
        | false => rfl
        | true =>
          have hj : j ≠ i := fun hji => he (by rw [hji])
          simp [bounds_fresh_step, hj]
      | calculate_bounding_box j => simp [bounds_fresh_step]
      | check_boundingbox_intersect j => rfl
      | target_update j => rfl
    rw [List.foldl_cons, hstep]
    exact ih (fun e he => h e (List.mem_cons_of_mem _ he))

/-- A call of `calculate_bounding_box` on target `i` among entries that never
write true to its flag makes the box fresh. -/
theorem bounds_fresh_foldl_calc (i : Nat) (evs : List Event) (b : Bool)
    (h : ∀ e ∈ evs, e ≠ Event.write_active i true)
    (hc : Event.calculate_bounding_box i ∈ evs) :
    evs.foldl (bounds_fresh_step i) b = true := by
  induction evs generalizing b with
  | nil => simp at hc
  | cons e evs ih =>
    have hrest : ∀ e ∈ evs, e ≠ Event.write_active i true :=
      fun e he => h e (List.mem_cons_of_mem _ he)
    rw [List.foldl_cons]
    by_cases he : e = Event.calculate_bounding_box i
    · subst he
      have : bounds_fresh_step i b (Event.calculate_bounding_box i) = true := by
        simp [bounds_fresh_step]
      rw [this]
      exact bounds_fresh_foldl_keep i evs hrest
    · have hc2 : Event.calculate_bounding_box i ∈ evs := by
        rcases List.mem_cons.mp hc with h1 | h1
        · exact absurd h1.symm he
        · exact h1
      exact ih _ hrest hc2

/-- Reading true from a trace means: either the trace splits at a call of
`calculate_bounding_box` on target `i` with no write of true to its flag
after, or the reading started at true and the flag was never written true. -/
theorem bounds_fresh_foldl_true (i : Nat) (evs : List Event) (b : Bool)
    (h : evs.foldl (bounds_fresh_step i) b = true) :
    calculated_since_activation evs i ∨ (b = true ∧ Event.write_active i true ∉ evs) := by
  induction evs generalizing b with
  | nil => exact Or.inr ⟨by simpa using h, by simp⟩
  | cons e evs ih =>
    rw [List.foldl_cons] at h
    rcases ih _ h with ⟨pre, post, hsplit, hpost⟩ | ⟨hb, hno⟩
    · exact Or.inl ⟨e :: pre, post, by rw [hsplit]; rfl, hpost⟩
    · by_cases hc : e = Event.calculate_bounding_box i
      · exact Or.inl ⟨[], evs, by rw [hc]; rfl, hno⟩
      · by_cases hw : e = Event.write_active i true
        · rw [hw] at hb
          simp [bounds_fresh_step] at hb
        · right
          have hstep : bounds_fresh_step i b e = b :=
            bounds_fresh_foldl_neutral i [e] b (by
              intro e' he'
              rw [List.mem_singleton.mp he']
              exact ⟨hw, hc⟩)
          rw [hstep] at hb
          refine ⟨hb, ?_⟩
          intro hmem
          rcases List.mem_cons.mp hmem with h1 | h1
          · exact hw h1.symm
          · exact hno h1

/-- A fresh reading of the whole trace is a split of the trace. -/
theorem bounds_fresh_split (trace : List Event) (i : Nat) (h : bounds_fresh trace i = true) :
    calculated_since_activation trace i := by
  rcases bounds_fresh_foldl_true i trace false h with h1 | ⟨h1, _⟩
  · exact h1
  · cases h1

/-- After `awake_targets` followed by `create_boundingbox_targets` every target
has a fresh box, whatever the state before. -/
theorem awake_create_fresh (E : Engine) (s : State) :
    active_targets_fresh (create_boundingbox_targets E (awake_targets s)) := by
  intro i t ht _
  have hlen : i < (awake_targets s).m_targets.length := by
    have h1 : (create_boundingbox_targets E (awake_targets s)).m_targets.length =
        (awake_targets s).m_targets.length :=
      for_each_target_length _ 0 _
    have h2 : i < (create_boundingbox_targets E (awake_targets s)).m_targets.length := by
      by_contra hcon
      rw [List.getElem?_eq_none (by omega)] at ht
      cases ht
    omega
  have hact : ((awake_targets s).m_targets[i]).m_active = true := by
    have h : (awake_targets s).m_targets =
        s.m_targets.map (fun t => { t with m_active := true }) :=
      for_each_target_eq_map _ awake_targets_body (fun _ _ => rfl) 0 s.m_targets
    simp [h]
  have hcalc : Event.calculate_bounding_box i ∈
      (for_each_target (create_boundingbox_targets_body E) 0 (awake_targets s).m_targets).2 := by
    rw [run_target_loop_mem_events]
    exact ⟨i, _, List.getElem?_eq_getElem hlen, by
      simp [create_boundingbox_targets_body, hact]⟩
  have hno : ∀ e ∈
      (for_each_target (create_boundingbox_targets_body E) 0 (awake_targets s).m_targets).2,
      e ≠ Event.write_active i true := by
    intro e he heq
    obtain ⟨j, u, _, _, hj⟩ := create_boundingbox_targets_events E (awake_targets s) e he
    rw [heq] at hj
    cases hj
  show bounds_fresh (create_boundingbox_targets E (awake_targets s)).trace i = true
  unfold bounds_fresh create_boundingbox_targets
  rw [run_target_loop_trace, List.foldl_append]
  exact bounds_fresh_foldl_calc i _ _ hno hcalc

/-- The invariant survives `poll_events`. -/
theorem poll_events_fresh (E : Engine) (s : State) (P : Platform)
    (h : active_targets_fresh s) : active_targets_fresh (poll_events E s P) := by
  unfold poll_events
  by_cases hP : P.key KeyId.KEY_P = KeyState.JustPressed
  · simp only [hP, if_true]
    exact awake_create_fresh E _
  · simp only [hP, if_false]
    split
    · exact h
    · exact h

/-- The invariant survives `update_targets` when a target's own update keeps
its flag. -/
theorem update_targets_fresh (E : Engine)
    (hupd : ∀ t dt, (E.Target_update t dt).m_active = t.m_active) (s : State) (P : Platform)
    (h : active_targets_fresh s) : active_targets_fresh (update_targets E s P) := by
  intro i t ht hact
  unfold update_targets at ht
  rw [run_target_loop_getElem?] at ht
  cases hs : s.m_targets[i]? with
  | none => rw [hs] at ht; cases ht
  | some u =>
    rw [hs] at ht
    simp only [Option.map_some', Option.some.injEq, update_targets_body] at ht
    have hu : u.m_active = true := by rw [← hupd u P.dt, ht]; exact hact
    have hfresh := h i u hs hu
    show bounds_fresh (update_targets E s P).trace i = true
    unfold bounds_fresh update_targets
    rw [run_target_loop_trace, List.foldl_append]
    rw [bounds_fresh_foldl_neutral]
    · exact hfresh
    · intro e he
      rw [run_target_loop_mem_events] at he
      obtain ⟨j, v, _, hj⟩ := he
      simp only [update_targets_body, List.mem_singleton] at hj
      rw [hj]
      exact ⟨by simp, by simp⟩

/-- The invariant survives `check_boundingbox_intersects`. -/
theorem check_boundingbox_intersects_fresh (E : Engine) (s : State) (P : Platform)
    (h : active_targets_fresh s) :
    active_targets_fresh (check_boundingbox_intersects E s P) := by
  unfold check_boundingbox_intersects
  split
  · intro i t ht hact
    rw [run_target_loop_getElem?] at ht
    cases hs : s.m_targets[i]? with
    | none => rw [hs] at ht; cases ht
    | some u =>
      rw [hs] at ht
      simp only [Option.map_some', Option.some.injEq] at ht
      have hu : u.m_active = true := by
        unfold check_boundingbox_intersects_body at ht
        split at ht
        · rw [← ht] at hact
          cases hact
        · have hut : u = t := ht
          rw [hut]; exact hact
      have hfresh := h i u hs hu
      show bounds_fresh (State.run_target_loop s _).trace i = true
      unfold bounds_fresh
      rw [run_target_loop_trace, List.foldl_append]
      rw [bounds_fresh_foldl_neutral]
      · exact hfresh
      · intro e he
        rw [run_target_loop_mem_events] at he
        obtain ⟨j, v, _, hj⟩ := he
        unfold check_boundingbox_intersects_body at hj
        split at hj
        · simp only [List.mem_cons, List.mem_singleton, List.not_mem_nil, or_false] at hj
          rcases hj with hj | hj <;> rw [hj] <;> exact ⟨by simp, by simp⟩
        · simp only [List.mem_singleton] at hj
          rw [hj]
          exact ⟨by simp, by simp⟩
  · exact h

/-- The invariant survives the first six calls of `update`. -/
theorem update_until_check_fresh (E : Engine)
    (hupd : ∀ t dt, (E.Target_update t dt).m_active = t.m_active) (s : State) (P : Platform)
    (h : active_targets_fresh s) : active_targets_fresh (update_until_check E s P) := by
  unfold update_until_check
  apply update_targets_fresh E hupd
  exact h

/-- The invariant survives a frame. -/
theorem frame_fresh (E : Engine)
    (hupd : ∀ t dt, (E.Target_update t dt).m_active = t.m_active) (s : State) (P : Platform)
    (h : active_targets_fresh s) : active_targets_fresh (frame E s P) := by
  have hframe : frame E s P =
      check_boundingbox_intersects E (update_until_check E (poll_events E s P) P) P := rfl
  rw [hframe]
  exact check_boundingbox_intersects_fresh E _ P
    (update_until_check_fresh E hupd _ P (poll_events_fresh E s P h))

/-- The invariant survives any number of frames. -/
theorem run_frames_fresh (E : Engine)
    (hupd : ∀ t dt, (E.Target_update t dt).m_active = t.m_active) (frames : List Platform)
    (s : State) (h : active_targets_fresh s) : active_targets_fresh (run_frames E s frames) := by
  induction frames generalizing s with
  | nil => exact h
  | cons P frames ih => exact ih (frame E s P) (frame_fresh E hupd s P h)

/-- C6: start the frame loop in a state whose targets are all inactive and let
`Target::update` keep the flag of its target.  After any number of frames, in
the state in which `check_boundingbox_intersects` of the next frame is entered
(after that frame's `poll_events` and the first six calls of `update`), for
every active target the trace splits at a call of `calculate_bounding_box` on
it after which its flag is not written true again. -/
theorem bounds_before_hit_test (E : Engine)
    (hupd : ∀ t dt, (E.Target_update t dt).m_active = t.m_active)
    (s0 : State) (h0 : ∀ t ∈ s0.m_targets, t.m_active = false)
    (frames : List Platform) (P : Platform) (i : Nat) (t : Target)
    (ht : (update_until_check E (poll_events E (run_frames E s0 frames) P) P).m_targets[i]? =
      some t)
    (hact : t.m_active = true) :
    frame E (run_frames E s0 frames) P =
      check_boundingbox_intersects E
        (update_until_check E (poll_events E (run_frames E s0 frames) P) P) P ∧
    bounds_fresh
      (update_until_check E (poll_events E (run_frames E s0 frames) P) P).trace i = true ∧
    calculated_since_activation
      (update_until_check E (poll_events E (run_frames E s0 frames) P) P).trace i := by
  have hinit : active_targets_fresh s0 := by
    intro j u hu hua
    have := h0 u (List.getElem?_mem hu)
    rw [this] at hua
    cases hua
  have hinv := update_until_check_fresh E hupd _ P
    (poll_events_fresh E _ P (run_frames_fresh E hupd frames s0 hinit))
  have hfresh := hinv i t ht hact
  exact ⟨rfl, hfresh, bounds_fresh_split _ i hfresh⟩

/-- C6 on the sample controller: the targets start inactive, P is pressed in
the first frame, and in the second frame the first target is active when the
hit check is entered. -/
theorem bounds_before_hit_test_witness :
    bounds_fresh
      (update_until_check sample_engine
        (poll_events sample_engine
          (run_frames sample_engine (set_targets sample_state) [just_pressed KeyId.KEY_P])
          idle_platform) idle_platform).trace 0 = true :=
  (bounds_before_hit_test sample_engine (fun _ _ => rfl) (set_targets sample_state)
    (by decide) [just_pressed KeyId.KEY_P] idle_platform 0 sample_target_0
    (by rfl) (by rfl)).2.1

/-! ## Window resize -/

/-- C11: `on_window_resize(width, height)` sets the perspective `Width` and
`Height` and the orthographic `Right` and `Top` to the new width and height
and leaves the perspective `FOV`, `Near`, `Far`, the orthographic `Left`,
`Bottom`, `Near`, `Far` and the camera as they were; the aspect derived from
the perspective parameters is then width / height; and resizing a freshly
initialized controller gives what initializing at the new size gives. -/
theorem on_window_resize_spec (g : GraphicsController) (width height : Int) :
    (on_window_resize g width height).m_perspective_params.Width = (width : ℚ) ∧
    (on_window_resize g width height).m_perspective_params.Height = (height : ℚ) ∧
    (on_window_resize g width height).m_ortho_params.Right = (width : ℚ) ∧
    (on_window_resize g width height).m_ortho_params.Top = (height : ℚ) ∧
    (on_window_resize g width height).m_perspective_params.FOV = g.m_perspective_params.FOV ∧
    (on_window_resize g width height).m_perspective_params.Near = g.m_perspective_params.Near ∧
    (on_window_resize g width height).m_perspective_params.Far = g.m_perspective_params.Far ∧
    (on_window_resize g width height).m_ortho_params.Left = g.m_ortho_params.Left ∧
    (on_window_resize g width height).m_ortho_params.Bottom = g.m_ortho_params.Bottom ∧
    (on_window_resize g width height).m_ortho_params.Near = g.m_ortho_params.Near ∧
    (on_window_resize g width height).m_ortho_params.Far = g.m_ortho_params.Far ∧
    (on_window_resize g width height).m_camera = g.m_camera ∧
    (on_window_resize g width height).m_perspective_params.aspect =
      (width : ℚ) / (height : ℚ) ∧
    ∀ (radians : ℚ → ℚ) (w0 h0 : Int),
      on_window_resize (initialize_projection radians g w0 h0) width height =
        initialize_projection radians g width height :=
  ⟨rfl, rfl, rfl, rfl, rfl, rfl, rfl, rfl, rfl, rfl, rfl, rfl, rfl, fun _ _ _ => rfl⟩

/-! ## Drawing the instanced trees: results -/

/-- A frame leaves the transform buffer and its count alone. -/
theorem frame_keeps_trees (E : Engine) (s : State) (P : Platform) :
    (frame E s P).m_model_tree = s.m_model_tree ∧
    (frame E s P).m_amount_tree = s.m_amount_tree := by
  have hcheck : ∀ s : State,
      (check_boundingbox_intersects E s P).m_model_tree = s.m_model_tree ∧
      (check_boundingbox_intersects E s P).m_amount_tree = s.m_amount_tree := by
    intro s
    unfold check_boundingbox_intersects
    split <;> exact ⟨rfl, rfl⟩
  have hpoll : (poll_events E s P).m_model_tree = s.m_model_tree ∧
      (poll_events E s P).m_amount_tree = s.m_amount_tree := by
    unfold poll_events
    by_cases h1 : P.key KeyId.KEY_F1 = KeyState.JustPressed <;>
      by_cases h2 : P.key KeyId.KEY_P = KeyState.JustPressed <;>
      simp only [h1, h2, if_true, if_false] <;> refine ⟨?_, ?_⟩ <;> first | rfl | trivial
  have hframe : frame E s P =
      check_boundingbox_intersects E (update_until_check E (poll_events E s P) P) P := rfl
  rw [hframe, (hcheck _).1, (hcheck _).2]
  exact hpoll

/-- Any number of frames leave the transform buffer and its count alone. -/
theorem run_frames_keeps_trees (E : Engine) (frames : List Platform) (s : State) :
    (run_frames E s frames).m_model_tree = s.m_model_tree ∧
    (run_frames E s frames).m_amount_tree = s.m_amount_tree := by
  induction frames generalizing s with
  | nil => exact ⟨rfl, rfl⟩
  | cons P frames ih =>
    have h := ih (frame E s P)
    have hf := frame_keeps_trees E s P
    exact ⟨h.1.trans hf.1, h.2.trans hf.2⟩

/-- The setup calls of one `draw_instanced_tree`: one, with the buffer and the
count of the state. -/
theorem draw_instanced_tree_setups (s : State) :
    (draw_instanced_tree s).filter GfxCall.is_setup =
      [GfxCall.Model_set_instanced_draw "tree" s.m_model_tree s.m_amount_tree] := rfl

/-- The draw requests of one `draw_instanced_tree`: one, with the count of the
state. -/
theorem draw_instanced_tree_draws (s : State) :
    (draw_instanced_tree s).filter GfxCall.is_instanced_draw =
      [GfxCall.Model_instanced_draw "tree" "tree" s.m_amount_tree] := rfl

/-- Over the frames of the host loop there is one setup call per frame, each
with the same buffer and count. -/
theorem frame_draws_setups (E : Engine) (frames : List Platform) (s : State) :
    (frame_draws E s frames).filter GfxCall.is_setup =
      List.replicate frames.length
        (GfxCall.Model_set_instanced_draw "tree" s.m_model_tree s.m_amount_tree) := by
  induction frames generalizing s with
  | nil => rfl
  | cons P frames ih =>
    have hf := frame_keeps_trees E s P
    simp only [frame_draws, List.filter_append, draw_instanced_tree_setups, ih, hf.1, hf.2,
      List.length_cons, List.replicate_succ]
    rfl

/-- Over the frames of the host loop there is one draw request per frame, each
with the same count. -/
theorem frame_draws_draws (E : Engine) (frames : List Platform) (s : State) :
    (frame_draws E s frames).filter GfxCall.is_instanced_draw =
      List.replicate frames.length
        (GfxCall.Model_instanced_draw "tree" "tree" s.m_amount_tree) := by
  induction frames generalizing s with
  | nil => rfl
  | cons P frames ih =>
    have hf := frame_keeps_trees E s P
    simp only [frame_draws, List.filter_append, draw_instanced_tree_draws, ih, hf.2,
      List.length_cons, List.replicate_succ]
    rfl

/-- C12: a call of `draw_instanced_tree` makes exactly one batched draw request
(`Model::instanced_draw` on the tree model with the tree shader), reached
through the one call of `GraphicsController::instanced_draw`, which itself
makes exactly one; the buffer handed over is all of `m_model_tree` and the
count is `m_amount_tree`.  After `set_instanced_tree`, `set_targets` and any
number of frames the count is 34, the number of matrices in the buffer, which
is still the buffer `set_instanced_tree` built. -/
theorem draw_instanced_tree_one_request (E : Engine) (s0 : State) (frames : List Platform) :
    (∀ s : State, (draw_instanced_tree s).filter GfxCall.is_instanced_draw =
      [GfxCall.Model_instanced_draw "tree" "tree" s.m_amount_tree]) ∧
    (∀ s : State, (draw_instanced_tree s).filter GfxCall.is_setup =
      [GfxCall.Model_set_instanced_draw "tree" s.m_model_tree s.m_amount_tree]) ∧
    (∀ (model shader : String) (model_matrix : List Mat4) (amount : Nat),
      (GraphicsController_instanced_draw model shader model_matrix amount).filter
          GfxCall.is_instanced_draw =
        [GfxCall.Model_instanced_draw model shader amount]) ∧
    (run_frames E (set_targets (set_instanced_tree s0)) frames).m_amount_tree = 34 ∧
    (run_frames E (set_targets (set_instanced_tree s0)) frames).m_model_tree.length = 34 ∧
    (run_frames E (set_targets (set_instanced_tree s0)) frames).m_model_tree =
      (set_instanced_tree s0).m_model_tree ∧
    (draw_instanced_tree
        (run_frames E (set_targets (set_instanced_tree s0)) frames)).filter
        GfxCall.is_instanced_draw =
      [GfxCall.Model_instanced_draw "tree" "tree"
        (run_frames E (set_targets (set_instanced_tree s0)) frames).m_model_tree.length] := by
  have hk := run_frames_keeps_trees E frames (set_targets (set_instanced_tree s0))
  have hamount :
      (run_frames E (set_targets (set_instanced_tree s0)) frames).m_amount_tree = 34 := hk.2
  have hbuf : (run_frames E (set_targets (set_instanced_tree s0)) frames).m_model_tree =
      (set_instanced_tree s0).m_model_tree := hk.1
  have hlen : (set_instanced_tree s0).m_model_tree.length = 34 :=
    (set_instanced_tree_loop_spec tree_offsets ⟨0.5, 0.5, 0.5⟩ 34).1
  refine ⟨draw_instanced_tree_draws, draw_instanced_tree_setups, fun _ _ _ _ => rfl,
    hamount, by rw [hbuf, hlen], hbuf, ?_⟩
  rw [draw_instanced_tree_draws, hamount, hbuf, hlen]

/-- C13 (against the claim as stated): on the sample controller after
`set_instanced_tree` and `set_targets`, two idle frames give two setup calls,
not one, and the draw of the second frame carries a setup call of its own. -/
theorem instanced_draw_sets_up_again :
    ((frame_draws sample_engine (set_targets (set_instanced_tree sample_state))
        [idle_platform, idle_platform]).filter GfxCall.is_setup).length = 2 ∧
    ((draw_instanced_tree
        (run_frames sample_engine (set_targets (set_instanced_tree sample_state))
          [idle_platform, idle_platform])).filter GfxCall.is_setup).length = 1 := by
  refine ⟨?_, ?_⟩
  · rw [frame_draws_setups]
    rfl
  · rw [draw_instanced_tree_setups]
    rfl

/-- C13 (amended): every call of `GraphicsController::instanced_draw` hands
the buffer and the count to the model for setup and then makes the draw
request; so over any frames of the host loop, none of which rebuilds the
batch, there is one setup call and one draw request per frame, the first frame
and the later ones alike, each setup with the same buffer and count. -/
theorem instanced_draw_sets_up_every_frame (E : Engine) (s : State) (frames : List Platform) :
    (∀ (model shader : String) (model_matrix : List Mat4) (amount : Nat),
      GraphicsController_instanced_draw model shader model_matrix amount =
        [GfxCall.Model_set_instanced_draw model model_matrix amount,
         GfxCall.Model_instanced_draw model shader amount]) ∧
    (frame_draws E s frames).filter GfxCall.is_setup =
      List.replicate frames.length
        (GfxCall.Model_set_instanced_draw "tree" s.m_model_tree s.m_amount_tree) ∧
    (frame_draws E s frames).filter GfxCall.is_instanced_draw =
      List.replicate frames.length
        (GfxCall.Model_instanced_draw "tree" "tree" s.m_amount_tree) :=
  ⟨fun _ _ _ _ => rfl, frame_draws_setups E frames s, frame_draws_draws E frames s⟩

end RgProject
